import Mathlib

/-!
Shallow embedding of the appointment-booking backend (`src/index.js`).

The program is an Express app over a Prisma store with three routes that
carry the core logic: `GET /availability` (admin view and booking view),
`POST /availability` (upsert of a date's configured intervals) and
`POST /bookings` (conflict check, create, confirmation email).

Modelling conventions:
* Calendar dates and clock times are the strings the HTTP layer hands the
  handlers; `new Date(date)` keying is modelled by using the date string
  itself as the unique key (i.e. requests are assumed to use one canonical
  spelling per day, which is how every claim and spec example uses them).
* The Prisma store is an explicit state: an association list for the
  `Availability` table (the unique index on `date` makes it a map) and a
  list for the `Booking` table in insertion order.
* JavaScript falsiness of a request string field (`!name`, `!date`, ...)
  is: the field is absent, or it is the empty string.
* `prisma.booking.create` and `transporter.sendMail` are external calls
  that may throw; each is modelled by a Boolean parameter saying whether
  the call succeeds.  A throw anywhere in a handler's `try` block lands in
  the single `catch`, which answers one fixed opaque server error.
-/

/-- One configured interval `{from, to}` as stored in
`Availability.timeSlots` (JSON objects of two time strings). -/
structure TimeSlot where
  «from» : String
  «to» : String
deriving DecidableEq, Repr

/-- A row of the `Booking` table (the `id`/`createdAt` columns play no role
in any handler's logic and are omitted). -/
structure Booking where
  name : String
  email : String
  date : String
  time : String
deriving DecidableEq, Repr

/-- The persistent store: the `Availability` table (unique on `date`, hence
an association list keyed by the date) and the `Booking` table. -/
structure DB where
  availabilities : List (String × List TimeSlot)
  bookings : List Booking
deriving DecidableEq, Repr

/-- JavaScript truthiness test `!x` for an optional request string field:
true when the field is absent or the empty string. -/
def falsy : Option String → Bool
  | none => true
  | some s => s == ""

/-- The characters of a time string before the first `':'`: what
`s.split(":")[0]` yields in the handler. -/
def takeUntilColon : List Char → List Char
  | [] => []
  | c :: cs => if c = ':' then [] else c :: takeUntilColon cs

/-- Left-to-right decimal accumulation of a digit list; a non-digit
character poisons the result (JavaScript `Number` yielding `NaN`). -/
def digitsToNat : List Char → Option Nat → Option Nat
  | [], acc => acc
  | c :: cs, acc =>
      digitsToNat cs (match acc with
        | none => none
        | some n => if c.isDigit then some (n * 10 + (c.toNat - 48)) else none)

/-- The read `Number(s.split(":")[0])` from `expandTimeSlots`: the hour field of a
time string, read as a decimal number.  JavaScript's `Number("")` is `0`;
a non-numeric hour field gives `NaN`, modelled as `none` (a `NaN` bound
makes the expansion loop below run zero times, exactly as `NaN`
comparisons are false in JavaScript). -/
def parseHour (s : String) : Option Nat :=
  match takeUntilColon s.data with
  | [] => some 0
  | cs => digitsToNat cs (some 0)

/-- The padding `hour.toString().padStart(2, "0")`. -/
def padStart2 (s : String) : String :=
  if s.length ≥ 2 then s else String.mk (List.replicate (2 - s.length) '0') ++ s

/-- The slot label pushed by the expansion loop:
`hour.toString().padStart(2, "0") + ":00"`. -/
def formatHour (h : Nat) : String := padStart2 (toString h) ++ ":00"

/-- The loop `for (let hour = fromHour; hour < toHour; hour++)
times.push(...)`, run for its iteration count `toHour - fromHour`
(zero when `fromHour ≥ toHour`), appending to the accumulated `times`. -/
def expandGo : Nat → Nat → List String → List String
  | 0, _, times => times
  | n + 1, hour, times => expandGo n (hour + 1) (times ++ [formatHour hour])

/-- The function `expandTimeSlots` from the booking view of `GET /availability`:
for each interval in order, parse the hour of `from` and of `to` and push
one `"HH:00"` label per hour from `fromHour` (inclusive) to `toHour`
(exclusive) onto the shared `times` array.  When either bound parses to
`NaN` the loop guard is false at once and the interval contributes
nothing. -/
def expandTimeSlots (timeSlots : List TimeSlot) : List String :=
  timeSlots.foldl
    (fun times slot =>
      match parseHour slot.«from», parseHour slot.«to» with
      | some fromHour, some toHour => expandGo (toHour - fromHour) fromHour times
      | _, _ => times)
    []

/-- The fallback intervals the booking view uses when the date has no
`Availability` record. -/
def defaultTimeSlots : List TimeSlot :=
  [⟨"09:00", "12:00"⟩, ⟨"14:00", "17:00"⟩]

/-- The list `bookings.map(b => b.time)` over
`prisma.booking.findMany({where: {date}})`: the times already reserved on
a date. -/
def reservedTimes (db : DB) (d : String) : List String :=
  (db.bookings.filter (fun b => b.date == d)).map Booking.time

/-- The three shapes of answer `GET /availability` can give. -/
inductive GetAvailabilityResponse where
  | clientError
  | adminView (timeSlots : List TimeSlot)
  | bookingView (availableTimes : List String)
deriving DecidableEq, Repr

/-- The `GET /availability` handler. `date` and `view` are the query
parameters (absent or a string).  Missing/empty date answers 400; the
exact string `"admin"` selects the admin view (raw configured intervals or
`[]`); any other view value takes the booking branch: expand the
configured (or default) intervals and drop every slot whose label is an
already-reserved time of that date. -/
def getAvailability (db : DB) (date view : Option String) : GetAvailabilityResponse :=
  if falsy date then .clientError
  else
    let d := date.getD ""
    let availability := db.availabilities.lookup d
    if view == some "admin" then
      .adminView (availability.getD [])
    else
      let timeSlots := availability.getD defaultTimeSlots
      let allTimes := expandTimeSlots timeSlots
      let reserved := reservedTimes db d
      .bookingView (allTimes.filter (fun t => !(reserved.contains t)))

/-- The two shapes of answer `POST /availability` can give (the storage
failure path is not modelled: no claim touches it). -/
inductive PostAvailabilityResponse where
  | clientError
  | ok (timeSlots : List TimeSlot)
deriving DecidableEq, Repr

/-- The call `prisma.availability.upsert` keyed by date: update the existing row's
`timeSlots` if the date is present, otherwise append a new row. -/
def upsertAvailability : List (String × List TimeSlot) → String → List TimeSlot →
    List (String × List TimeSlot)
  | [], d, ts => [(d, ts)]
  | (d', ts') :: rest, d, ts =>
      if d' == d then (d', ts) :: rest else (d', ts') :: upsertAvailability rest d ts

/-- The `POST /availability` handler: reject when `date` is falsy or
`timeSlots` absent, otherwise upsert and echo the stored slots. -/
def postAvailability (db : DB) (date : Option String) (timeSlots : Option (List TimeSlot)) :
    DB × PostAvailabilityResponse :=
  if falsy date || timeSlots.isNone then (db, .clientError)
  else
    let d := date.getD ""
    let ts := timeSlots.getD []
    ({ db with availabilities := upsertAvailability db.availabilities d ts }, .ok ts)

/-- The four shapes of answer `POST /bookings` can give.  `serverError` is
the single `catch`-block answer (same opaque 500 body whether the create
or the email threw). -/
inductive PostBookingResponse where
  | validationError
  | conflictError
  | success (booking : Booking)
  | serverError
deriving DecidableEq, Repr

/-- What a `POST /bookings` call leaves behind: the store afterwards, the
HTTP answer, and how many confirmation emails were delivered. -/
structure BookingOutcome where
  db : DB
  response : PostBookingResponse
  emailsSent : Nat
deriving DecidableEq, Repr

/-- The `POST /bookings` handler.  `createOk` models whether
`prisma.booking.create` succeeds, `emailOk` whether
`transporter.sendMail` succeeds; either one throwing falls into the
handler's single `catch`, which answers the same opaque server error.
Control flow of the source: reject if any field is falsy; answer the
conflict error if `findFirst` sees a booking with this date and time;
otherwise create the record (append), then send the email; only if both
succeed answer the success body with the new record. -/
def postBookings (db : DB) (name email date time : Option String)
    (createOk emailOk : Bool) : BookingOutcome :=
  if falsy name || falsy email || falsy date || falsy time then
    ⟨db, .validationError, 0⟩
  else
    let n := name.getD ""
    let e := email.getD ""
    let d := date.getD ""
    let t := time.getD ""
    match db.bookings.find? (fun b => b.date == d && b.time == t) with
    | some _ => ⟨db, .conflictError, 0⟩
    | none =>
        if createOk then
          let newBooking : Booking := ⟨n, e, d, t⟩
          let db' : DB := { db with bookings := db.bookings ++ [newBooking] }
          if emailOk then ⟨db', .success newBooking, 1⟩
          else ⟨db', .serverError, 0⟩
        else ⟨db, .serverError, 0⟩

/-- Spec-side description of interval expansion, written from the spec's
words ("every integer hour from `fromHour` inclusive to `toHour` exclusive
becomes one slot labeled `HH:00`"), to be compared with the source-derived
`expandTimeSlots`. -/
def hourRangeSpec (slot : TimeSlot) : List String :=
  match parseHour slot.«from», parseHour slot.«to» with
  | some f, some t => (List.range' f (t - f)).map formatHour
  | _, _ => []

/-! ## Helper lemmas -/

/-- Unrolling the expansion loop: it appends the formatted hours
`hour, hour + 1, ..., hour + n - 1` to the accumulated list. -/
theorem expandGo_eq_append (n : Nat) : ∀ (hour : Nat) (times : List String),
    expandGo n hour times = times ++ (List.range' hour n).map formatHour := by
  induction n with
  | zero => intro hour times; simp [expandGo]
  | succ n ih =>
      intro hour times
      rw [expandGo, ih, List.range'_succ]
      simp

/-- Generalisation of the fold in `expandTimeSlots` to an arbitrary
accumulated prefix. -/
theorem expand_foldl (slots : List TimeSlot) : ∀ (times : List String),
    slots.foldl
      (fun times slot =>
        match parseHour slot.«from», parseHour slot.«to» with
        | some fromHour, some toHour => expandGo (toHour - fromHour) fromHour times
        | _, _ => times) times
    = times ++ slots.flatMap hourRangeSpec := by
  induction slots with
  | nil => intro times; simp
  | cons slot rest ih =>
      intro times
      rw [List.foldl_cons, List.flatMap_cons]
      have hstep :
          (match parseHour slot.«from», parseHour slot.«to» with
            | some fromHour, some toHour => expandGo (toHour - fromHour) fromHour times
            | _, _ => times)
          = times ++ hourRangeSpec slot := by
        cases hf : parseHour slot.«from» <;> cases ht : parseHour slot.«to» <;>
          simp [hourRangeSpec, hf, ht, expandGo_eq_append]
      rw [hstep, ih, List.append_assoc]

/-- The accumulator-passing source loop computes the per-interval
concatenation of hour ranges. -/
theorem expandTimeSlots_eq_flatMap (slots : List TimeSlot) :
    expandTimeSlots slots = slots.flatMap hourRangeSpec := by
  rw [expandTimeSlots.eq_def, expand_foldl]
  simp

/-- A nonempty request field is not falsy. -/
theorem falsy_some_eq_false {s : String} (h : s ≠ "") : falsy (some s) = false := by
  simp [falsy, h]

/-- After an upsert for date `d`, looking `d` up yields exactly the
submitted slots. -/
theorem lookup_upsertAvailability (avs : List (String × List TimeSlot)) (d : String)
    (ts : List TimeSlot) : (upsertAvailability avs d ts).lookup d = some ts := by
  induction avs with
  | nil => simp [upsertAvailability, List.lookup]
  | cons p rest ih =>
      obtain ⟨k, v⟩ := p
      by_cases h : k = d
      · subst h
        simp [upsertAvailability, List.lookup]
      · have h1 : (k == d) = false := beq_eq_false_iff_ne.mpr h
        have h2 : (d == k) = false := beq_eq_false_iff_ne.mpr (Ne.symm h)
        simp [upsertAvailability, List.lookup, h1, h2, ih]

/-! ## Concrete stores used by the witnesses -/

/-- A store with no configured availability and no bookings. -/
def emptyStore : DB := ⟨[], []⟩

/-- A store with no configured availability and one booking at
2024-01-01, 09:00. -/
def storeBookedNine : DB :=
  ⟨[], [⟨"Mario", "mario@example.com", "2024-01-01", "09:00"⟩]⟩

/-! ## Claims -/

/-- C1: for a date with no configured `Availability` record, the booking
view expands the default intervals 09:00-12:00 and 14:00-17:00 to exactly
the slots 09:00, 10:00, 11:00, 14:00, 15:00, 16:00, and the response is
that list minus the already-reserved times of the date. -/
theorem default_slots_booking_view (db : DB) (d : String) (view : Option String)
    (hnone : db.availabilities.lookup d = none) (hd : d ≠ "")
    (hview : view ≠ some "admin") :
    expandTimeSlots defaultTimeSlots =
      ["09:00", "10:00", "11:00", "14:00", "15:00", "16:00"] ∧
    getAvailability db (some d) view =
      .bookingView ((["09:00", "10:00", "11:00", "14:00", "15:00", "16:00"]).filter
        (fun t => !((reservedTimes db d).contains t))) := by
  have hexp : expandTimeSlots defaultTimeSlots =
      ["09:00", "10:00", "11:00", "14:00", "15:00", "16:00"] := by decide
  refine ⟨hexp, ?_⟩
  have h1 : falsy (some d) = false := falsy_some_eq_false hd
  have h2 : (view == some "admin") = false := beq_eq_false_iff_ne.mpr hview
  simp [getAvailability, h1, h2, hnone, hexp]

/-- Witness for C1 at the empty store and date 2024-01-01. -/
theorem default_slots_booking_view_witness :
    expandTimeSlots defaultTimeSlots =
      ["09:00", "10:00", "11:00", "14:00", "15:00", "16:00"] ∧
    getAvailability emptyStore (some "2024-01-01") none =
      .bookingView ((["09:00", "10:00", "11:00", "14:00", "15:00", "16:00"]).filter
        (fun t => !((reservedTimes emptyStore "2024-01-01").contains t))) :=
  default_slots_booking_view emptyStore "2024-01-01" none (by decide) (by decide)
    (by decide)

/-- C2: expansion yields, for each interval in order, one `HH:00` slot per
integer hour from the parsed `from` hour (inclusive) to the parsed `to`
hour (exclusive), the minutes of both bounds being ignored; in particular
the interval 09:00-11:00 expands to exactly 09:00, 10:00. -/
theorem expansion_is_hour_ranges (slots : List TimeSlot) :
    expandTimeSlots slots = slots.flatMap hourRangeSpec ∧
    expandTimeSlots [⟨"09:00", "11:00"⟩] = ["09:00", "10:00"] ∧
    expandTimeSlots [⟨"09:30", "11:45"⟩] = ["09:00", "10:00"] :=
  ⟨expandTimeSlots_eq_flatMap slots, by decide, by decide⟩

/-- C10: an interval whose parsed `from` hour is at least its parsed `to`
hour contributes zero slots, wherever it sits in the interval list (the
Lean loop is total by construction, matching the finite iteration count
`toHour - fromHour` of the source loop). -/
theorem degenerate_interval_no_slots (pre post : List TimeSlot) (slot : TimeSlot)
    (f t : Nat) (hf : parseHour slot.«from» = some f)
    (ht : parseHour slot.«to» = some t) (hle : t ≤ f) :
    expandTimeSlots (pre ++ slot :: post) = expandTimeSlots (pre ++ post) := by
  rw [expandTimeSlots_eq_flatMap, expandTimeSlots_eq_flatMap, List.flatMap_append,
    List.flatMap_append, List.flatMap_cons]
  have hz : hourRangeSpec slot = [] := by
    simp [hourRangeSpec, hf, ht, Nat.sub_eq_zero_of_le hle]
  rw [hz]
  simp

/-- Witness for C10: the reversed interval 17:00-09:00 adds nothing after
a normal interval. -/
theorem degenerate_interval_no_slots_witness :
    expandTimeSlots [⟨"09:00", "10:00"⟩, ⟨"17:00", "09:00"⟩] =
      expandTimeSlots [⟨"09:00", "10:00"⟩] :=
  degenerate_interval_no_slots [⟨"09:00", "10:00"⟩] [] ⟨"17:00", "09:00"⟩ 17 9
    (by decide) (by decide) (by decide)

/-- C3: the booking view answers exactly the expanded slot list with the
slots whose label is an already-booked time of the date removed, in
expansion order (the result is a sublist of the expansion, and no booked
time survives). -/
theorem booking_view_excludes_reserved (db : DB) (d : String) (view : Option String)
    (hd : d ≠ "") (hview : view ≠ some "admin") :
    ∃ ts, getAvailability db (some d) view = .bookingView ts ∧
      ts = (expandTimeSlots ((db.availabilities.lookup d).getD defaultTimeSlots)).filter
        (fun t => !((reservedTimes db d).contains t)) ∧
      ts.Sublist (expandTimeSlots ((db.availabilities.lookup d).getD defaultTimeSlots)) ∧
      ∀ t ∈ ts, ∀ b ∈ db.bookings, b.date = d → b.time ≠ t := by
  have h1 : falsy (some d) = false := falsy_some_eq_false hd
  have h2 : (view == some "admin") = false := beq_eq_false_iff_ne.mpr hview
  refine ⟨(expandTimeSlots ((db.availabilities.lookup d).getD defaultTimeSlots)).filter
      (fun t => !((reservedTimes db d).contains t)), ?_, rfl, List.filter_sublist _, ?_⟩
  · simp [getAvailability, h1, h2]
  · intro t htmem b hb hbd hbt
    have hres : t ∈ reservedTimes db d := by
      simp only [reservedTimes]
      subst hbt
      exact List.mem_map_of_mem Booking.time (List.mem_filter.mpr ⟨hb, by simp [hbd]⟩)
    have hcon := (List.mem_filter.mp htmem).2
    simp [hres] at hcon

/-- Witness for C3: with one booking at 2024-01-01, 09:00 and no
configured availability, the answer for 2024-01-01 is the default
expansion without 09:00. -/
theorem booking_view_excludes_reserved_witness :
    (∃ ts, getAvailability storeBookedNine (some "2024-01-01") none = .bookingView ts ∧
      ts = (expandTimeSlots
          ((storeBookedNine.availabilities.lookup "2024-01-01").getD defaultTimeSlots)).filter
        (fun t => !((reservedTimes storeBookedNine "2024-01-01").contains t)) ∧
      ts.Sublist (expandTimeSlots
        ((storeBookedNine.availabilities.lookup "2024-01-01").getD defaultTimeSlots)) ∧
      ∀ t ∈ ts, ∀ b ∈ storeBookedNine.bookings, b.date = "2024-01-01" → b.time ≠ t) ∧
    getAvailability storeBookedNine (some "2024-01-01") none =
      .bookingView ["10:00", "11:00", "14:00", "15:00", "16:00"] :=
  ⟨booking_view_excludes_reserved storeBookedNine "2024-01-01" none (by decide)
    (by decide), by decide⟩

/-- C4: a `POST /bookings` for a (date, time) pair that already has a
booking answers the conflict error and leaves the store untouched, with
no email sent. -/
theorem duplicate_booking_rejected (db : DB) (n e d t : String)
    (hn : n ≠ "") (he : e ≠ "") (hd : d ≠ "") (ht : t ≠ "")
    (b : Booking) (hb : b ∈ db.bookings) (hbd : b.date = d) (hbt : b.time = t)
    (createOk emailOk : Bool) :
    postBookings db (some n) (some e) (some d) (some t) createOk emailOk =
      ⟨db, .conflictError, 0⟩ := by
  have h1 : falsy (some n) = false := falsy_some_eq_false hn
  have h2 : falsy (some e) = false := falsy_some_eq_false he
  have h3 : falsy (some d) = false := falsy_some_eq_false hd
  have h4 : falsy (some t) = false := falsy_some_eq_false ht
  have hsome : (db.bookings.find? (fun b => b.date == d && b.time == t)).isSome := by
    rcases hfind : db.bookings.find? (fun b => b.date == d && b.time == t) with _ | b'
    · rw [List.find?_eq_none] at hfind
      exact absurd (by simp [hbd, hbt]) (hfind b hb)
    · simp [hfind]
  obtain ⟨b', hb'⟩ := Option.isSome_iff_exists.mp hsome
  simp [postBookings, h1, h2, h3, h4, hb']

/-- Witness for C4: rebooking the already-taken 2024-01-01, 09:00 slot. -/
theorem duplicate_booking_rejected_witness :
    postBookings storeBookedNine (some "Luigi") (some "luigi@example.com")
      (some "2024-01-01") (some "09:00") true true =
      ⟨storeBookedNine, .conflictError, 0⟩ :=
  duplicate_booking_rejected storeBookedNine "Luigi" "luigi@example.com"
    "2024-01-01" "09:00" (by decide) (by decide) (by decide) (by decide)
    ⟨"Mario", "mario@example.com", "2024-01-01", "09:00"⟩ (by decide) (by decide)
    (by decide) true true

/-- C5: when the create step succeeds but the email send fails, the answer
is the opaque server error although the new booking is already persisted,
and that answer is identical to the one given when the create itself
failed and nothing was saved. -/
theorem email_failure_partial_success (db : DB) (n e d t : String)
    (hn : n ≠ "") (he : e ≠ "") (hd : d ≠ "") (ht : t ≠ "")
    (hfree : ∀ b ∈ db.bookings, ¬(b.date = d ∧ b.time = t)) :
    (postBookings db (some n) (some e) (some d) (some t) true false).response =
      .serverError ∧
    (postBookings db (some n) (some e) (some d) (some t) true false).db.bookings =
      db.bookings ++ [⟨n, e, d, t⟩] ∧
    (postBookings db (some n) (some e) (some d) (some t) false false).response =
      (postBookings db (some n) (some e) (some d) (some t) true false).response ∧
    (postBookings db (some n) (some e) (some d) (some t) false false).db = db := by
  have h1 : falsy (some n) = false := falsy_some_eq_false hn
  have h2 : falsy (some e) = false := falsy_some_eq_false he
  have h3 : falsy (some d) = false := falsy_some_eq_false hd
  have h4 : falsy (some t) = false := falsy_some_eq_false ht
  have hfind : db.bookings.find? (fun b => b.date == d && b.time == t) = none :=
    List.find?_eq_none.mpr (fun b hb => by simpa using hfree b hb)
  simp [postBookings, h1, h2, h3, h4, hfind]

/-- Witness for C5 at the empty store. -/
theorem email_failure_partial_success_witness :
    (postBookings emptyStore (some "Mario") (some "mario@example.com")
      (some "2024-01-01") (some "09:00") true false).response = .serverError ∧
    (postBookings emptyStore (some "Mario") (some "mario@example.com")
      (some "2024-01-01") (some "09:00") true false).db.bookings =
      emptyStore.bookings ++
        [⟨"Mario", "mario@example.com", "2024-01-01", "09:00"⟩] ∧
    (postBookings emptyStore (some "Mario") (some "mario@example.com")
      (some "2024-01-01") (some "09:00") false false).response =
      (postBookings emptyStore (some "Mario") (some "mario@example.com")
        (some "2024-01-01") (some "09:00") true false).response ∧
    (postBookings emptyStore (some "Mario") (some "mario@example.com")
      (some "2024-01-01") (some "09:00") false false).db = emptyStore :=
  email_failure_partial_success emptyStore "Mario" "mario@example.com"
    "2024-01-01" "09:00" (by decide) (by decide) (by decide) (by decide)
    (by decide)

/-- C6: upserting availability for a fresh date makes the admin view
answer exactly the submitted slots, and before any configuration the
admin view answers the empty list. -/
theorem upsert_then_admin_view (db : DB) (d : String) (ts : List TimeSlot)
    (hd : d ≠ "") (hnew : db.availabilities.lookup d = none) :
    (postAvailability db (some d) (some ts)).2 = .ok ts ∧
    getAvailability (postAvailability db (some d) (some ts)).1 (some d)
      (some "admin") = .adminView ts ∧
    getAvailability db (some d) (some "admin") = .adminView [] := by
  have h1 : falsy (some d) = false := falsy_some_eq_false hd
  refine ⟨by simp [postAvailability, h1], ?_, by simp [getAvailability, h1, hnew]⟩
  simp [postAvailability, getAvailability, h1, lookup_upsertAvailability]

/-- Witness for C6: configuring 10:00-12:00 for a fresh date. -/
theorem upsert_then_admin_view_witness :
    (postAvailability emptyStore (some "2024-03-05")
      (some [⟨"10:00", "12:00"⟩])).2 = .ok [⟨"10:00", "12:00"⟩] ∧
    getAvailability (postAvailability emptyStore (some "2024-03-05")
      (some [⟨"10:00", "12:00"⟩])).1 (some "2024-03-05") (some "admin") =
      .adminView [⟨"10:00", "12:00"⟩] ∧
    getAvailability emptyStore (some "2024-03-05") (some "admin") =
      .adminView [] :=
  upsert_then_admin_view emptyStore "2024-03-05" [⟨"10:00", "12:00"⟩]
    (by decide) (by decide)

/-- C7: a `POST /bookings` with any of the four fields absent answers the
validation error, stores nothing and sends no email. -/
theorem missing_field_rejected (db : DB) (name email date time : Option String)
    (createOk emailOk : Bool)
    (h : name = none ∨ email = none ∨ date = none ∨ time = none) :
    postBookings db name email date time createOk emailOk =
      ⟨db, .validationError, 0⟩ := by
  rcases h with h | h | h | h <;> subst h <;> simp [postBookings, falsy]

/-- Witness for C7: a request without a date field. -/
theorem missing_field_rejected_witness :
    postBookings emptyStore (some "Mario") (some "mario@example.com") none
      (some "09:00") true true = ⟨emptyStore, .validationError, 0⟩ :=
  missing_field_rejected emptyStore (some "Mario") (some "mario@example.com")
    none (some "09:00") true true (Or.inr (Or.inr (Or.inl rfl)))

/-- C8: a `GET /availability` without a date parameter answers the client
error, whatever the stored state and the view flag. -/
theorem missing_date_client_error (db : DB) (view : Option String) :
    getAvailability db none view = .clientError := by
  simp [getAvailability, falsy]

/-- C9: only the exact view string `admin` selects the admin view; any
other value of the view parameter (absent included) takes the booking
branch and answers available times. -/
theorem view_dispatch_exact_admin (db : DB) (d : String) (view : Option String)
    (hd : d ≠ "") :
    (view ≠ some "admin" →
      getAvailability db (some d) view =
        .bookingView ((expandTimeSlots
            ((db.availabilities.lookup d).getD defaultTimeSlots)).filter
          (fun t => !((reservedTimes db d).contains t)))) ∧
    (view = some "admin" →
      getAvailability db (some d) view =
        .adminView ((db.availabilities.lookup d).getD [])) := by
  have h1 : falsy (some d) = false := falsy_some_eq_false hd
  constructor
  · intro hv
    have h2 : (view == some "admin") = false := beq_eq_false_iff_ne.mpr hv
    simp [getAvailability, h1, h2]
  · intro hv
    subst hv
    simp [getAvailability, h1]

/-- Witness for C9: the capitalised view value `Admin` still takes the
booking branch, while `admin` takes the admin branch. -/
theorem view_dispatch_exact_admin_witness :
    getAvailability emptyStore (some "2024-01-01") (some "Admin") =
      .bookingView ["09:00", "10:00", "11:00", "14:00", "15:00", "16:00"] ∧
    getAvailability emptyStore (some "2024-01-01") (some "admin") =
      .adminView [] := by
  constructor
  · rw [(view_dispatch_exact_admin emptyStore "2024-01-01" (some "Admin")
      (by decide)).1 (by decide)]
    decide
  · rw [(view_dispatch_exact_admin emptyStore "2024-01-01" (some "admin")
      (by decide)).2 rfl]
    decide
